import Mathlib

/-!
Verification of the `chord` package (graphitects/chord, src/chord.go).

The package is a composable dispatch tree: a `Chord` node owns a map from
string keys to `Thread` handlers, a map from string keys to child `Chord`
nodes, and an ordered slice of `ThreadWrapper` middlewares.  `WrapThreads`
composes a handler through a wrapper sequence, and `Match` resolves a path
of keys to a wrapped handler.

A Go `Thread` is `func(Input, Output)`: an opaque effectful function that the
core never inspects.  We therefore embed threads as an abstract type
parameter `T`; a `ThreadWrapper` is then a function `T → T`, exactly as in
the source (`type ThreadWrapper func(Thread) Thread`).  In theorems that need
observable behaviour we instantiate `T` at concrete types such as `List Nat`
(an execution log).

The `sync.Map` fields are embedded as association lists with
store-overwrites / delete / load operations mirroring
`Store`, `Delete` and `Load`.  The slice aliasing behaviour of
`FetchMiddlewares` / `Use` (copy vs. live view) is modelled separately with
an explicit slice heap in namespace `SliceHeap`.
-/

namespace ChordSpec

/-- Embedding of `ThreadWrapper` (src/chord.go line 239): `type ThreadWrapper func(Thread) Thread`,
with the opaque `Thread` type embedded as the parameter `T`. -/
abbrev ThreadWrapper (T : Type) := T → T

/-- Embedding of `WrapThreads` (src/chord.go lines 244-249):
```go
func WrapThreads(thread Thread, tw ...ThreadWrapper) Thread {
    for i := len(tw) - 1; i > 0; i-- {
        thread = tw[i](thread)
    }
    return thread
}
```
The loop runs `i = len(tw)-1, …, 1` (the condition is `i > 0`, so index `0`
is never visited), applying `tw[i]` to the accumulated handler in decreasing
index order.  That is exactly a right fold of the tail `tw[1:]` over the
initial handler: `tw[1] (tw[2] (… tw[n-1] thread …))`. -/
def WrapThreads {T : Type} (thread : T) (tw : List (ThreadWrapper T)) : T :=
  (tw.drop 1).foldr (fun w acc => w acc) thread

/-- Embedding of `Chord` (src/chord.go lines 160-175): the `threads` sync.Map
(key → Thread), the `chords` sync.Map (key → *Chord) and the `middlewares`
slice, embedded as association lists / a list. -/
inductive Chord (T : Type) : Type where
  | mk (threads : List (String × T)) (chords : List (String × Chord T))
      (middlewares : List (ThreadWrapper T))

/-- The `threads` field of a `Chord`. -/
def Chord.threads {T : Type} : Chord T → List (String × T)
  | .mk t _ _ => t

/-- The `chords` field of a `Chord`. -/
def Chord.chords {T : Type} : Chord T → List (String × Chord T)
  | .mk _ c _ => c

/-- The `middlewares` field of a `Chord`. -/
def Chord.middlewares {T : Type} : Chord T → List (ThreadWrapper T)
  | .mk _ _ m => m

/-- Embedding of `sync.Map.Load`: the first entry stored under `k`, if any. -/
def lookupKey {α : Type} (l : List (String × α)) (k : String) : Option α :=
  (l.find? (fun p => p.1 == k)).map (fun p => p.2)

/-- Embedding of `sync.Map.Store`: overwrite the entry under `k` with `v`. -/
def storeKey {α : Type} (l : List (String × α)) (k : String) (v : α) :
    List (String × α) :=
  (k, v) :: l.filter (fun p => p.1 != k)

/-- Embedding of `sync.Map.Delete`: remove the entry under `k`. -/
def deleteKey {α : Type} (l : List (String × α)) (k : String) :
    List (String × α) :=
  l.filter (fun p => p.1 != k)

/-- Embedding of `FetchThread` (src/chord.go lines 179-186): `c.threads.Load(key)`,
returning the thread and whether it was found (`Option` in place of the
Go `(Thread, bool)` pair). -/
def FetchThread {T : Type} (c : Chord T) (key : String) : Option T :=
  lookupKey c.threads key

/-- Embedding of `FetchChord` (src/chord.go lines 190-197): `c.chords.Load(key)`. -/
def FetchChord {T : Type} (c : Chord T) (key : String) : Option (Chord T) :=
  lookupKey c.chords key

/-- Embedding of `FetchMiddlewares` (src/chord.go lines 201-205): returns a copy of the
middleware slice.  In this pure embedding the copy is simply the value of the
field; the aliasing content of "copy" is modelled in `SliceHeap` below. -/
def FetchMiddlewares {T : Type} (c : Chord T) : List (ThreadWrapper T) :=
  c.middlewares

/-- Embedding of `Register` (src/chord.go lines 210-213): wraps the thread through the
given wrappers with `WrapThreads`, then stores it under `key`. -/
def Register {T : Type} (c : Chord T) (key : String) (thread : T)
    (tw : List (ThreadWrapper T)) : Chord T :=
  .mk (storeKey c.threads key (WrapThreads thread tw)) c.chords c.middlewares

/-- Embedding of `Unregister` (src/chord.go lines 217-219): `c.threads.Delete(key)`; the
`thread` parameter appears in the Go signature but is not used. -/
def Unregister {T : Type} (c : Chord T) (key : String) (thread : T) : Chord T :=
  .mk (deleteKey c.threads key) c.chords c.middlewares

/-- Embedding of `Mount` (src/chord.go lines 222-224): `c.chords.Store(key, chord)`. -/
def Mount {T : Type} (c : Chord T) (key : String) (child : Chord T) : Chord T :=
  .mk c.threads (storeKey c.chords key child) c.middlewares

/-- Embedding of `Unmount` (src/chord.go lines 227-229): `c.chords.Delete(key)`. -/
def Unmount {T : Type} (c : Chord T) (key : String) : Chord T :=
  .mk c.threads (deleteKey c.chords key) c.middlewares

/-- Embedding of `Use` (src/chord.go lines 233-235): appends the wrappers to the
middleware slice. -/
def Use {T : Type} (c : Chord T) (tw : List (ThreadWrapper T)) : Chord T :=
  .mk c.threads c.chords (c.middlewares ++ tw)

/-- Helper for `Match`, recursing on the path (src/chord.go lines 254-282):
* empty path: not found;
* single key: look the key up in `node.threads`, wrap the found thread with
  `node`'s middlewares;
* longer path: look the first key up in `node.chords`; on failure fail; on
  success recurse on the tail against the child `chord` and wrap the result
  with `chord.FetchMiddlewares()` (the child's middlewares — this is what the
  source does at line 280). -/
def MatchAux {T : Type} : List String → Chord T → Option T
  | [], _ => none
  | k :: rest, node =>
    match rest with
    | [] =>
      match FetchThread node k with
      | none => none
      | some thread => some (WrapThreads thread (FetchMiddlewares node))
    | _ :: _ =>
      match FetchChord node k with
      | none => none
      | some chord =>
        match MatchAux rest chord with
        | none => none
        | some thread => some (WrapThreads thread (FetchMiddlewares chord))

/-- Embedding of `Match` (src/chord.go lines 254-282). -/
def Match {T : Type} (node : Chord T) (path : List String) : Option T :=
  MatchAux path node

namespace SliceHeap

/-!
Model of the Go slice aliasing behaviour of `FetchMiddlewares` and `Use`.
A heap is a list of allocated backing arrays, indexed by allocation order;
a slice value is a reference into the heap.  `FetchMiddlewares` performs
`make` + `copy` (lines 202-204), i.e. it allocates a fresh backing array with
the current contents of the node's middleware slice and returns a reference
to the fresh allocation.  `Use` performs `append` (line 234); whether Go's
`append` grows in place or reallocates, the node's slice afterwards refers to
a backing array distinct from every previously returned snapshot, so it is
modelled as allocating the extended contents and repointing the node's field.
Mutating a slice element is a heap write through the slice's reference.
-/

/-- A heap of allocated slice backing arrays, over wrapper values `W`. -/
abbrev Heap (W : Type) : Type := List (List W)

/-- A slice reference: the index of its backing array in the heap. -/
structure SliceRef where
  idx : Nat

/-- The contents a slice reference currently sees. -/
def readSlice {W : Type} (h : Heap W) (r : SliceRef) : List W :=
  h.getD r.idx []

/-- Mutate the backing array a slice reference points to (models writing
elements of a returned snapshot, e.g. `md[0] = w`). -/
def writeSlice {W : Type} (h : Heap W) (r : SliceRef) (v : List W) : Heap W :=
  h.set r.idx v

/-- The node's `middlewares` field: a reference to its backing array. -/
structure NodeMW where
  mw : SliceRef

/-- Heap model of `FetchMiddlewares` (src/chord.go lines 201-205):
`md := make([]ThreadWrapper, len(c.middlewares)); copy(md, c.middlewares);
return md` — allocate a fresh backing array holding a copy of the node's
current contents and return a reference to the fresh allocation. -/
def fetchMiddlewaresHeap {W : Type} (h : Heap W) (n : NodeMW) :
    Heap W × SliceRef :=
  (h ++ [readSlice h n.mw], ⟨h.length⟩)

/-- Heap model of `Use` (src/chord.go lines 233-235):
`c.middlewares = append(c.middlewares, tw...)` — the node's slice now sees
the old contents followed by `tw`, backed by an allocation distinct from
every previously returned snapshot. -/
def useHeap {W : Type} (h : Heap W) (n : NodeMW) (tw : List W) :
    Heap W × NodeMW :=
  (h ++ [readSlice h n.mw ++ tw], ⟨⟨h.length⟩⟩)

end SliceHeap

/-! Concrete instances used to witness or refute particular claims. -/

/-- Child node of the two-level counterexample tree: handler `[0]` under key
`"h"`, middlewares that record `3` resp. `4` in the log. -/
def c2Child : Chord (List Nat) :=
  .mk [("h", [0])] [] [fun t => 3 :: t, fun t => 4 :: t]

/-- Root node of the two-level counterexample tree: child `c2Child` under key
`"c"`, middlewares that record `1` resp. `2` in the log. -/
def c2Root : Chord (List Nat) :=
  .mk [] [("c", c2Child)] [fun t => 1 :: t, fun t => 2 :: t]

/-- A node with a handler, a child under the same key, and a middleware. -/
def c3Node : Chord Nat :=
  .mk [("h", 5)] [("h", .mk [] [] [])] [Nat.succ]

/-- A node where `"c"` is registered as a handler but not mounted as a child. -/
def c4Node : Chord Nat := .mk [("c", 7)] [] []

/-- An empty node. -/
def c7Node : Chord Nat := .mk [] [] []

/-- A one-allocation heap for the slice model. -/
def heap9 : SliceHeap.Heap Nat := [[1]]

/-- A node whose middleware slice is allocation `0` of `heap9`. -/
def node9 : SliceHeap.NodeMW := ⟨⟨0⟩⟩

/-- A non-empty node holding no entry under key `"x"`. -/
def c10Node : Chord Nat := .mk [("a", 1)] [("b", .mk [] [] [])] [Nat.succ]

/-! ## General lemmas about the embedded operations -/

theorem chord_eta {T : Type} (c : Chord T) :
    Chord.mk c.threads c.chords c.middlewares = c := by
  cases c
  rfl

theorem lookup_delete_self {α : Type} (l : List (String × α)) (k : String) :
    lookupKey (deleteKey l k) k = none := by
  simp only [lookupKey, deleteKey, Option.map_eq_none']
  rw [List.find?_eq_none]
  intro x hx
  have hmem := List.mem_filter.mp hx
  simpa using hmem.2

theorem delete_of_lookup_none {α : Type} (l : List (String × α)) (k : String)
    (h : lookupKey l k = none) : deleteKey l k = l := by
  simp only [lookupKey, Option.map_eq_none'] at h
  rw [List.find?_eq_none] at h
  apply List.filter_eq_self.mpr
  intro a ha
  simpa using h a ha

theorem lookup_store_self {α : Type} (l : List (String × α)) (k : String)
    (v : α) : lookupKey (storeKey l k v) k = some v := by
  simp [lookupKey, storeKey, List.find?]

namespace SliceHeap

theorem readSlice_append {W : Type} (h : Heap W) (l : List W) (r : SliceRef)
    (hr : r.idx < h.length) : readSlice (h ++ [l]) r = readSlice h r := by
  simp [readSlice, List.getD, List.getElem?_append_left hr]

theorem readSlice_append_last {W : Type} (h : Heap W) (l : List W) :
    readSlice (h ++ [l]) ⟨h.length⟩ = l := by
  simp [readSlice, List.getD]

theorem readSlice_write_ne {W : Type} (h : Heap W) (r s : SliceRef)
    (v : List W) (hne : s.idx ≠ r.idx) :
    readSlice (writeSlice h s v) r = readSlice h r := by
  simp [readSlice, writeSlice, List.getD, List.getElem?_set_ne hne]

end SliceHeap

/-! ## The claims -/

/-- C1: the claim states that for a non-empty wrapper sequence,
`WrapThreads h [w1, …, wn]` equals `w1 (w2 (… wn h …))`, with every wrapper
applied and `w1` outermost.  The code's loop stops at index `1` and never
applies `tw[0]`: with a single wrapper nothing is applied at all.  At the
failing input `thread = 0`, `tw = [Nat.succ]` the code returns `0`, while the
claim requires `Nat.succ 0 = 1`. -/
theorem wrapThreads_skips_first_wrapper :
    (∀ (T : Type) (t : T) (w : ThreadWrapper T), WrapThreads t [w] = t) ∧
    WrapThreads (0 : Nat) [Nat.succ] = 0 ∧ Nat.succ 0 = 1 :=
  ⟨fun _ _ _ => rfl, rfl, rfl⟩

/-- C2: the claim states that `Match root ["c", "h"]` accumulates each
traversed node's middleware exactly once, root's outermost: on `c2Root`
(root middlewares push `1`, `2`; child middlewares push `3`, `4`; handler
`[0]`) it would have to yield the log `[1, 2, 3, 4, 0]`.  The code instead
wraps the recursive result with the child's middleware snapshot
(`chord.FetchMiddlewares()`, line 280) and `WrapThreads` skips index `0`, so
the child's second middleware runs twice and the root's middlewares never
run: the resolved handler produces `[4, 4, 0]`. -/
theorem match_at_c2Root :
    Match c2Root ["c", "h"] = some [4, 4, 0] ∧
    ([1, 2, 3, 4, 0] : List Nat) ≠ [4, 4, 0] :=
  ⟨rfl, by decide⟩

/-- C3: on a single-key path, `Match n [k]` succeeds exactly when a handler
is stored under `k` in `n`'s handler map; on success it returns that handler
composed (via `WrapThreads`) with `n`'s full middleware snapshot; and the
child map is never consulted (replacing it changes nothing). -/
theorem match_single_key {T : Type} (n : Chord T) (k : String) :
    (Match n [k] = none ↔ FetchThread n k = none) ∧
    (∀ t, FetchThread n k = some t →
      Match n [k] = some (WrapThreads t (FetchMiddlewares n))) ∧
    (∀ cs, Match (Chord.mk n.threads cs n.middlewares) [k] = Match n [k]) := by
  refine ⟨?_, ?_, ?_⟩
  · cases h : FetchThread n k <;> simp [Match, MatchAux, h]
  · intro t ht
    simp [Match, MatchAux, ht]
  · intro cs
    have h1 : FetchThread (Chord.mk n.threads cs n.middlewares) k
        = FetchThread n k := rfl
    have h2 : FetchMiddlewares (Chord.mk n.threads cs n.middlewares)
        = FetchMiddlewares n := rfl
    cases h : FetchThread n k <;>
      simp [Match, MatchAux, h1, h2, h]

/-- Witness for C3 at `c3Node`. -/
theorem match_single_key_witness :
    Match c3Node ["h"] = some (WrapThreads 5 (FetchMiddlewares c3Node)) :=
  (match_single_key c3Node "h").2.1 5 rfl

/-- C4: on a path of length at least two, `Match` looks the first key up only
in the child map; if no child is mounted there it fails immediately,
whatever the handler map holds under that key. -/
theorem match_deep_path_requires_child {T : Type} (n : Chord T)
    (k k2 : String) (rest : List String) (h : FetchChord n k = none) :
    Match n (k :: k2 :: rest) = none := by
  simp [Match, MatchAux, h]

/-- Witness for C4 at `c4Node`, where `"c"` is a registered handler but not a
mounted child. -/
theorem match_deep_path_requires_child_witness :
    Match c4Node ["c", "h"] = none ∧ FetchThread c4Node "c" = some 7 :=
  ⟨match_deep_path_requires_child c4Node "c" "h" [] rfl, rfl⟩

/-- C5: `Match` on the empty path returns not-found on every node, however
the node is populated. -/
theorem match_empty_path {T : Type} (n : Chord T) : Match n [] = none := rfl

/-- C6: `Unregister` removes the key's entry from the handler map for every
value of its `thread` argument, and the result does not depend on that
argument at all. -/
theorem unregister_deletes_by_key {T : Type} (c : Chord T) (k : String)
    (t t' : T) :
    FetchThread (Unregister c k t) k = none ∧
    Unregister c k t = Unregister c k t' :=
  ⟨lookup_delete_self c.threads k, rfl⟩

/-- C7: registering `B` under a key already holding `A` (both without
wrappers) overwrites it: `FetchThread` then returns `B`, and never `A` when
`A ≠ B`. -/
theorem register_last_write_wins {T : Type} (c : Chord T) (k : String)
    (A B : T) :
    FetchThread (Register (Register c k A []) k B []) k = some B ∧
    (A ≠ B → FetchThread (Register (Register c k A []) k B []) k ≠ some A) := by
  have hB : FetchThread (Register (Register c k A []) k B []) k = some B :=
    lookup_store_self _ k _
  refine ⟨hB, fun hne hA => hne ?_⟩
  rw [hB] at hA
  exact (Option.some.inj hA).symm

/-- Witness for C7 on the empty node with handlers `1` and `2`. -/
theorem register_last_write_wins_witness :
    FetchThread (Register (Register c7Node "k" 1 []) "k" 2 []) "k" = some 2 ∧
    FetchThread (Register (Register c7Node "k" 1 []) "k" 2 []) "k" ≠ some 1 :=
  ⟨(register_last_write_wins c7Node "k" 1 2).1,
    (register_last_write_wins c7Node "k" 1 2).2 (by decide)⟩

/-- C8: composing a handler with an empty wrapper sequence returns it
unchanged — including the absent handler (`T` instantiated at an `Option`
type with value `none`); no error is possible (`WrapThreads` is total). -/
theorem wrapThreads_empty_wrappers :
    (∀ (T : Type) (t : T), WrapThreads t [] = t) ∧
    WrapThreads (none : Option Nat) [] = none :=
  ⟨fun _ _ => rfl, rfl⟩

/-- C9: in the slice-heap model, `FetchMiddlewares` returns a copy, not a
live view: the snapshot holds the contents the node had at fetch time; a
later `Use` leaves a previously returned snapshot unchanged (so an appended
wrapper absent from the old contents never appears in it); and mutating the
returned snapshot never changes the sequence the node's field sees. -/
theorem fetchMiddlewares_returns_copy {W : Type} (h : SliceHeap.Heap W)
    (n : SliceHeap.NodeMW) (hv : n.mw.idx < h.length) (tw v : List W) :
    SliceHeap.readSlice (SliceHeap.fetchMiddlewaresHeap h n).1
        (SliceHeap.fetchMiddlewaresHeap h n).2 = SliceHeap.readSlice h n.mw ∧
    SliceHeap.readSlice
        (SliceHeap.useHeap (SliceHeap.fetchMiddlewaresHeap h n).1 n tw).1
        (SliceHeap.fetchMiddlewaresHeap h n).2 = SliceHeap.readSlice h n.mw ∧
    SliceHeap.readSlice
        (SliceHeap.writeSlice (SliceHeap.fetchMiddlewaresHeap h n).1
          (SliceHeap.fetchMiddlewaresHeap h n).2 v) n.mw
      = SliceHeap.readSlice h n.mw ∧
    (∀ w, w ∈ tw → w ∉ SliceHeap.readSlice h n.mw →
      w ∉ SliceHeap.readSlice
        (SliceHeap.useHeap (SliceHeap.fetchMiddlewaresHeap h n).1 n tw).1
        (SliceHeap.fetchMiddlewaresHeap h n).2) := by
  have hcopy : SliceHeap.readSlice (SliceHeap.fetchMiddlewaresHeap h n).1
      (SliceHeap.fetchMiddlewaresHeap h n).2 = SliceHeap.readSlice h n.mw :=
    SliceHeap.readSlice_append_last h _
  have hlt : (SliceHeap.fetchMiddlewaresHeap h n).2.idx
      < (SliceHeap.fetchMiddlewaresHeap h n).1.length := by
    simp [SliceHeap.fetchMiddlewaresHeap]
  have huse : SliceHeap.readSlice
      (SliceHeap.useHeap (SliceHeap.fetchMiddlewaresHeap h n).1 n tw).1
      (SliceHeap.fetchMiddlewaresHeap h n).2 = SliceHeap.readSlice h n.mw := by
    rw [SliceHeap.useHeap, SliceHeap.readSlice_append _ _ _ hlt, hcopy]
  refine ⟨hcopy, huse, ?_, ?_⟩
  · rw [show (SliceHeap.fetchMiddlewaresHeap h n).2
        = (⟨h.length⟩ : SliceHeap.SliceRef) from rfl,
      SliceHeap.readSlice_write_ne _ _ _ _ (Ne.symm (Nat.ne_of_lt hv)),
      show (SliceHeap.fetchMiddlewaresHeap h n).1
        = h ++ [SliceHeap.readSlice h n.mw] from rfl,
      SliceHeap.readSlice_append _ _ _ hv]
  · intro w _ hnot
    rw [huse]
    exact hnot

/-- Witness for C9 on the one-allocation heap `heap9`. -/
theorem fetchMiddlewares_returns_copy_witness :
    node9.mw.idx < heap9.length ∧
    SliceHeap.readSlice
        (SliceHeap.useHeap (SliceHeap.fetchMiddlewaresHeap heap9 node9).1
          node9 [2]).1
        (SliceHeap.fetchMiddlewaresHeap heap9 node9).2
      = SliceHeap.readSlice heap9 node9.mw :=
  ⟨by decide,
    (fetchMiddlewares_returns_copy heap9 node9 (by decide) [2] [5]).2.1⟩

/-- C10: deleting an absent key is a no-op: when no handler is stored under
`k`, `Unregister` returns the node unchanged (whatever its `thread`
argument), and when no child is mounted under `k`, `Unmount` returns the
node unchanged; neither can signal failure (both are total). -/
theorem absent_key_ops_noop {T : Type} (c : Chord T) (k : String) (t : T) :
    (FetchThread c k = none → Unregister c k t = c) ∧
    (FetchChord c k = none → Unmount c k = c) := by
  constructor
  · intro h
    unfold Unregister
    rw [delete_of_lookup_none c.threads k h]
    exact chord_eta c
  · intro h
    unfold Unmount
    rw [delete_of_lookup_none c.chords k h]
    exact chord_eta c

/-- Witness for C10 at `c10Node`, which holds no entry under `"x"`. -/
theorem absent_key_ops_noop_witness :
    Unregister c10Node "x" 9 = c10Node ∧ Unmount c10Node "x" = c10Node :=
  ⟨(absent_key_ops_noop c10Node "x" 9).1 rfl,
    (absent_key_ops_noop c10Node "x" 9).2 rfl⟩

end ChordSpec
